import Mathlib

/-!
Verification of the caching / compilation layer of `starlette-async-jinja`.

The development shallowly embeds the data model and operations of
`src/starlette_async_jinja/responses.py`, `compiler.py`, `loaders.py` and
`bccache.py`:

* Python `dict`s become insertion-ordered association lists (`PyDict`);
* wall-clock timestamps become `Int` (only ordering and subtraction are used);
* mutable context dictionaries become cells of an explicit heap (`CtxHeap`),
  so that copying versus aliasing is observable;
* coroutines/`await` become plain function calls (single-threaded cooperative
  scheduling: no interleaving happens inside the modelled functions);
* raised exceptions become `Except` results, with the mutated state returned
  alongside (Python state mutation survives an exception).
-/

namespace StarletteAsyncJinja

/-! ### Python dictionaries as insertion-ordered association lists -/

namespace PyDict

/-- `d[k]` lookup: first binding of `k` (keys are unique in a real dict). -/
def lookup {α : Type} : List (String × α) → String → Option α
  | [], _ => none
  | (k', v) :: rest, k => if k' = k then some v else lookup rest k

/-- `d[k] = v`: overwrite in place if the key is present, else append
(Python dicts preserve insertion order; assignment keeps the position). -/
def set {α : Type} : List (String × α) → String → α → List (String × α)
  | [], k, v => [(k, v)]
  | (k', v') :: rest, k, v =>
      if k' = k then (k', v) :: rest else (k', v') :: set rest k v

/-- `del d[k]`: remove the (first) binding of `k`. -/
def erase {α : Type} : List (String × α) → String → List (String × α)
  | [], _ => []
  | (k', v') :: rest, k => if k' = k then rest else (k', v') :: erase rest k

/-- `k in d`. -/
def contains {α : Type} (d : List (String × α)) (k : String) : Bool :=
  (lookup d k).isSome

/-- `d.update(d2)`: merge every binding of `d2` into `d`, later keys winning. -/
def update {α : Type} (d d2 : List (String × α)) : List (String × α) :=
  d2.foldl (fun acc kv => set acc kv.1 kv.2) d

theorem lookup_set_self {α : Type} (d : List (String × α)) (k : String) (v : α) :
    lookup (set d k v) k = some v := by
  induction d with
  | nil => simp [set, lookup]
  | cons hd tl ih =>
      by_cases h : hd.1 = k
      · simp [set, h, lookup]
      · simp [set, h, lookup, ih]

theorem lookup_set_ne {α : Type} (d : List (String × α)) (k k' : String) (v : α)
    (h : k ≠ k') : lookup (set d k v) k' = lookup d k' := by
  induction d with
  | nil => simp [set, lookup, h]
  | cons hd tl ih =>
      by_cases hh : hd.1 = k
      · simp [set, hh, lookup, h]
      · simp only [set, hh, if_false, lookup]
        by_cases hk : hd.1 = k'
        · simp [hk]
        · simp [hk, ih]

theorem lookup_erase_of_not_lookup {α : Type} (d : List (String × α)) (k k' : String)
    (h : lookup d k' = none) : lookup (erase d k) k' = none := by
  induction d with
  | nil => simpa [erase] using h
  | cons hd tl ih =>
      simp only [lookup] at h
      by_cases hk' : hd.1 = k'
      · simp [hk'] at h
      · simp only [hk', if_false] at h
        by_cases hk : hd.1 = k
        · simp [erase, hk, h]
        · simp [erase, hk, lookup, hk', ih h]

theorem length_set {α : Type} (d : List (String × α)) (k : String) (v : α) :
    (set d k v).length = if contains d k then d.length else d.length + 1 := by
  induction d with
  | nil => simp [set, contains, lookup]
  | cons hd tl ih =>
      by_cases h : hd.1 = k
      · simp [set, h, contains, lookup]
      · simp only [set, h, if_false, List.length_cons, ih, contains, lookup]
        by_cases hc : (lookup tl k).isSome
        · simp [contains, hc]
        · simp [contains, hc]

theorem length_erase_of_contains {α : Type} (d : List (String × α)) (k : String)
    (h : contains d k = true) : (erase d k).length + 1 = d.length := by
  induction d with
  | nil => simp [contains, lookup] at h
  | cons hd tl ih =>
      by_cases hk : hd.1 = k
      · simp [erase, hk]
      · simp only [contains, lookup, hk, if_false] at h
        simp [erase, hk, ih h]

theorem contains_set {α : Type} (d : List (String × α)) (k k' : String) (v : α) :
    contains (set d k v) k' = true → k = k' ∨ contains d k' = true := by
  intro h
  by_cases hk : k = k'
  · exact Or.inl hk
  · right
    unfold contains at h ⊢
    rwa [lookup_set_ne d k k' v hk] at h

theorem contains_erase {α : Type} (d : List (String × α)) (k k' : String) :
    contains (erase d k) k' = true → contains d k' = true := by
  intro h
  unfold contains at h ⊢
  by_cases hl : lookup d k' = none
  · rw [lookup_erase_of_not_lookup d k k' hl] at h
    simp at h
  · simpa [Option.isSome_iff_ne_none] using hl

end PyDict

/-! ### Timestamped LRU-by-write-time caches

All three response-layer caches store `(timestamp, value)` pairs and share the
same insertion code (responses.py lines 144-149, 183-189, 255-261):

    if len(cache) >= size:
        oldest_key = min(cache.keys(), key=lambda k: cache[k][0])
        del cache[oldest_key]
    cache[key] = (current_time, value)
-/

/-- `min(d.keys(), key=lambda k: d[k][0])`: the first key (in insertion order)
holding the minimal timestamp, paired with that timestamp.  Python's `min`
returns the earliest element among ties, which this recursion reproduces. -/
def oldestEntry {α : Type} : List (String × (Int × α)) → Option (String × Int)
  | [] => none
  | (k, (t, _)) :: rest =>
      match oldestEntry rest with
      | none => some (k, t)
      | some (k', t') => if t' < t then some (k', t') else some (k, t)

/-- The shared evict-then-insert step of the context cache
(`_get_processed_context`), `_get_cached_block_func` and
`_get_block_function_and_template`. -/
def evictInsert {α : Type} (size : Nat) (cache : List (String × (Int × α)))
    (key : String) (t : Int) (v : α) : List (String × (Int × α)) :=
  let cache' :=
    if size ≤ cache.length then
      match oldestEntry cache with
      | some (k0, _) => PyDict.erase cache k0
      | none => cache
    else cache
  PyDict.set cache' key (t, v)

theorem oldestEntry_spec {α : Type} (d : List (String × (Int × α))) (hd : d ≠ []) :
    ∃ k0 t0, oldestEntry d = some (k0, t0) ∧ PyDict.contains d k0 = true ∧
      ∀ e ∈ d, t0 ≤ e.2.1 := by
  induction d with
  | nil => exact absurd rfl hd
  | cons e rest ih =>
      obtain ⟨k, t, v⟩ := e
      by_cases hr : rest = []
      · subst hr
        exact ⟨k, t, by simp [oldestEntry], by simp [PyDict.contains, PyDict.lookup],
          by simp⟩
      · obtain ⟨k0, t0, he, hc, hmin⟩ := ih hr
        by_cases hlt : t0 < t
        · refine ⟨k0, t0, ?_, ?_, ?_⟩
          · simp [oldestEntry, he, hlt]
          · unfold PyDict.contains PyDict.lookup
            by_cases hk : k = k0
            · simp [hk]
            · simpa [hk] using hc
          · intro e' he'
            rcases List.mem_cons.mp he' with h | h
            · subst h; exact le_of_lt hlt
            · exact hmin e' h
        · refine ⟨k, t, ?_, ?_, ?_⟩
          · simp [oldestEntry, he, hlt]
          · simp [PyDict.contains, PyDict.lookup]
          · intro e' he'
            rcases List.mem_cons.mp he' with h | h
            · subst h; simp
            · exact le_trans (not_lt.mp hlt) (hmin e' h)

/-- Length of `evictInsert` for a fresh key: grows below capacity, stays put at
capacity (one eviction, one insertion). -/
theorem length_evictInsert {α : Type} (size : Nat) (cache : List (String × (Int × α)))
    (key : String) (t : Int) (v : α) (hcap : 1 ≤ size)
    (hfresh : PyDict.contains cache key = false) :
    (evictInsert size cache key t v).length =
      if size ≤ cache.length then cache.length else cache.length + 1 := by
  unfold evictInsert
  by_cases hs : size ≤ cache.length
  · have hne : cache ≠ [] := by
      intro h; subst h; simp at hs; omega
    obtain ⟨k0, t0, he, hc, _⟩ := oldestEntry_spec cache hne
    simp only [hs, if_true, he]
    have hkey : PyDict.contains (PyDict.erase cache k0) key = false := by
      unfold PyDict.contains at hfresh ⊢
      have : PyDict.lookup cache key = none := by
        cases h : PyDict.lookup cache key with
        | none => rfl
        | some x => simp [PyDict.contains, h] at hfresh
      simp [PyDict.lookup_erase_of_not_lookup cache k0 key this]
    rw [PyDict.length_set _ _ _, hkey]
    simp only [if_false, Bool.false_eq_true]
    have := PyDict.length_erase_of_contains cache k0 hc
    omega
  · simp only [hs, if_false]
    rw [PyDict.length_set, hfresh]
    simp

theorem contains_evictInsert {α : Type} (size : Nat) (d : List (String × (Int × α)))
    (key : String) (t : Int) (v : α) (k' : String)
    (h : PyDict.contains (evictInsert size d key t v) k' = true) :
    k' = key ∨ PyDict.contains d k' = true := by
  unfold evictInsert at h
  rcases PyDict.contains_set _ key k' (t, v) h with h1 | h1
  · exact Or.inl h1.symm
  · right
    by_cases hs : size ≤ d.length
    · simp only [hs, if_true] at h1
      cases he : oldestEntry d with
      | none => rwa [he] at h1
      | some p =>
          rw [he] at h1
          exact PyDict.contains_erase d p.1 k' h1
    · simpa [hs] using h1

theorem foldl_evictInsert_length {α : Type} (size : Nat) (hcap : 1 ≤ size)
    (es : List (String × Int × α)) (d : List (String × (Int × α)))
    (hnd : (es.map Prod.fst).Nodup)
    (hfresh : ∀ e ∈ es, PyDict.contains d e.1 = false)
    (hd : d.length ≤ size) :
    (es.foldl (fun acc e => evictInsert size acc e.1 e.2.1 e.2.2) d).length
      = min (d.length + es.length) size := by
  induction es generalizing d with
  | nil => simp; omega
  | cons e rest ih =>
      have hef : PyDict.contains d e.1 = false := hfresh e (by simp)
      have hlen : (evictInsert size d e.1 e.2.1 e.2.2).length =
          if size ≤ d.length then d.length else d.length + 1 :=
        length_evictInsert size d e.1 e.2.1 e.2.2 hcap hef
      have hnd' : (rest.map Prod.fst).Nodup := (List.nodup_cons.mp hnd).2
      have hnotin : e.1 ∉ rest.map Prod.fst := (List.nodup_cons.mp hnd).1
      have hfresh' : ∀ e' ∈ rest,
          PyDict.contains (evictInsert size d e.1 e.2.1 e.2.2) e'.1 = false := by
        intro e' he'
        by_contra hcontra
        have : PyDict.contains (evictInsert size d e.1 e.2.1 e.2.2) e'.1 = true := by
          cases h : PyDict.contains (evictInsert size d e.1 e.2.1 e.2.2) e'.1
          · exact absurd h hcontra
          · rfl
        rcases contains_evictInsert size d e.1 e.2.1 e.2.2 e'.1 this with h | h
        · exact hnotin (h ▸ List.mem_map_of_mem Prod.fst he')
        · have := hfresh e' (List.mem_cons_of_mem e he')
          rw [this] at h
          exact Bool.false_ne_true h
      simp only [List.foldl_cons]
      by_cases hs : size ≤ d.length
      · have heq : d.length = size := le_antisymm hd hs
        have hlen2 : (evictInsert size d e.1 e.2.1 e.2.2).length = d.length := by
          rw [hlen]; simp [hs]
        rw [ih _ hnd' hfresh' (by rw [hlen2]; exact hd), hlen2]
        simp only [List.length_cons]
        omega
      · have hlen2 : (evictInsert size d e.1 e.2.1 e.2.2).length = d.length + 1 := by
          rw [hlen]; simp [hs]
        rw [ih _ hnd' hfresh' (by rw [hlen2]; omega), hlen2]
        simp only [List.length_cons]
        omega

/-- C4: for each of the block/fragment cache and the context cache (which share
the `evictInsert` insertion code), inserting `k+1` distinct fresh keys into an
empty cache of capacity `k` leaves exactly `k` entries, and an insertion into a
cache at capacity always evicts the entry whose stored timestamp is minimal
(oldest write time, not least-recently-read). -/
theorem cache_eviction_correct {α : Type} (k : Nat) (hk : 1 ≤ k)
    (entries : List (String × Int × α)) (hlen : entries.length = k + 1)
    (hnd : (entries.map Prod.fst).Nodup)
    (cache : List (String × (Int × α))) (hatcap : cache.length = k)
    (key : String) (t : Int) (v : α)
    (hfresh : PyDict.contains cache key = false) :
    (entries.foldl (fun d e => evictInsert k d e.1 e.2.1 e.2.2) []).length = k ∧
    ∃ k0 t0, oldestEntry cache = some (k0, t0) ∧
      (∀ e ∈ cache, t0 ≤ e.2.1) ∧
      evictInsert k cache key t v = PyDict.set (PyDict.erase cache k0) key (t, v) := by
  constructor
  · rw [foldl_evictInsert_length k hk entries [] hnd
      (by intro e _; simp [PyDict.contains, PyDict.lookup]) (by simp)]
    simp only [List.length_nil, Nat.zero_add, hlen]
    omega
  · have hne : cache ≠ [] := by
      intro h; subst h; simp at hatcap; omega
    obtain ⟨k0, t0, he, _, hmin⟩ := oldestEntry_spec cache hne
    refine ⟨k0, t0, he, hmin, ?_⟩
    unfold evictInsert
    have hs : k ≤ cache.length := le_of_eq hatcap.symm
    simp [hs, he]

/-- Witness for C4 at a concrete capacity-2 cache. -/
theorem cache_eviction_correct_witness :
    (([("a", (1 : Int), (10 : Nat)), ("b", 2, 20), ("c", 3, 30)].foldl
        (fun d e => evictInsert 2 d e.1 e.2.1 e.2.2) []).length = 2) ∧
    ∃ k0 t0, oldestEntry [("x", ((5 : Int), (0 : Nat))), ("y", (4, 1))] = some (k0, t0) ∧
      (∀ e ∈ [("x", ((5 : Int), (0 : Nat))), ("y", (4, 1))], t0 ≤ e.2.1) ∧
      evictInsert 2 [("x", ((5 : Int), (0 : Nat))), ("y", (4, 1))] "z" 6 7 =
        PyDict.set (PyDict.erase [("x", (5, 0)), ("y", (4, 1))] k0) "z" (6, 7) :=
  cache_eviction_correct 2 (by decide)
    [("a", 1, 10), ("b", 2, 20), ("c", 3, 30)] (by decide) (by decide)
    [("x", (5, 0)), ("y", (4, 1))] (by decide) "z" 6 7 (by decide)

/-! ### Mutable context dictionaries as heap cells

Python context dicts are mutable objects passed by reference; `copy()` makes a
fresh object.  We model dict objects as cells of an explicit heap, addressed by
allocation index, so aliasing and copying are distinguishable. -/

/-- A template-context value.  Only the attributes the code inspects are
modelled: the cacheability heuristic asks for `method` and `url` attributes. -/
structure Value where
  hasMethod : Bool
  hasUrl : Bool
  payload : Nat
deriving DecidableEq, Repr

/-- Contents of one context dictionary. -/
abbrev Ctx := List (String × Value)

structure CtxHeap where
  cells : List Ctx
deriving DecidableEq, Repr

/-- Allocate a fresh dict object holding `c`; returns its address. -/
def CtxHeap.alloc (h : CtxHeap) (c : Ctx) : Nat × CtxHeap :=
  (h.cells.length, ⟨h.cells ++ [c]⟩)

/-- Current contents of the dict at address `a`. -/
def CtxHeap.read (h : CtxHeap) (a : Nat) : Ctx :=
  (h.cells.get? a).getD []

/-- Overwrite the contents of the dict at address `a`. -/
def CtxHeap.write (h : CtxHeap) (a : Nat) (c : Ctx) : CtxHeap :=
  ⟨h.cells.set a c⟩

theorem CtxHeap.read_alloc_self (h : CtxHeap) (c : Ctx) :
    ((h.alloc c).2).read (h.alloc c).1 = c := by
  unfold alloc read
  simp [List.getElem?_concat_length]

theorem CtxHeap.read_alloc_of_lt (h : CtxHeap) (c : Ctx) (a : Nat)
    (ha : a < h.cells.length) : ((h.alloc c).2).read a = h.read a := by
  unfold alloc read
  simp [List.getElem?_append_left ha]

theorem CtxHeap.read_write_ne (h : CtxHeap) (a b : Nat) (c : Ctx) (hne : a ≠ b) :
    (h.write b c).read a = h.read a := by
  unfold write read
  simp [List.getElem?_set_ne (fun hh => hne hh.symm)]

theorem CtxHeap.read_write_self (h : CtxHeap) (a : Nat) (c : Ctx)
    (ha : a < h.cells.length) : (h.write a c).read a = c := by
  unfold write read
  simp only [List.get?_eq_getElem?, List.getElem?_set_self']
  simp [List.getElem?_eq_getElem ha]

theorem CtxHeap.length_write (h : CtxHeap) (a : Nat) (c : Ctx) :
    (h.write a c).cells.length = h.cells.length := by
  unfold write
  simp

/-! ### The context cache (`_get_processed_context` and friends) -/

/-- The request-like object handed to `TemplateResponse`: the code only ever
reads `request.method`, `request.url.path` and `str(request)`. `none` models a
missing attribute. -/
structure Request where
  method : Option String
  urlPath : Option String
  asString : String

/-- `_get_context_cache_key` (responses.py 115-121). -/
def getContextCacheKey (request : Request) : String :=
  let path :=
    match request.urlPath with
    | some p => p
    | none => request.asString
  let method := request.method.getD "GET"
  method ++ ":" ++ path

/-- `_is_context_cacheable` (responses.py 123-127): `False` as soon as some
value exposes both a `method` and a `url` attribute, else `True`. -/
def isContextCacheable (context : Ctx) : Bool :=
  context.all fun kv => !(kv.2.hasMethod && kv.2.hasUrl)

/-- The loop of `_get_processed_context` (responses.py 138-142) building the
accumulated context: each processor's result is merged in registration order,
skipped when falsy (empty). -/
def buildProcessedContext (processors : List (Request → Ctx)) (request : Request) :
    Ctx :=
  processors.foldl
    (fun context processor =>
      let result := processor request
      if result.isEmpty then context else PyDict.update context result)
    []

structure CtxCacheState where
  heap : CtxHeap
  cache : List (String × (Int × Nat))

/-- `_get_processed_context` (responses.py 129-151).  Returns the address of
the context dict handed to the caller.  The cache stores the address of a
private copy; a hit returns a fresh copy of that copy.  The mutation of the
under-construction dict during the processor loop is elided (no alias to it
exists before it is returned), so it is allocated once, fully built. -/
def getProcessedContext (processors : List (Request → Ctx))
    (contextCacheSize : Nat) (contextCacheTtl : Int) (request : Request)
    (now : Int) (st : CtxCacheState) : Nat × CtxCacheState :=
  if processors.isEmpty then
    let (a, h) := st.heap.alloc []
    (a, ⟨h, st.cache⟩)
  else
    let cacheKey := getContextCacheKey request
    let hit : Option Nat :=
      match PyDict.lookup st.cache cacheKey with
      | some (cachedTime, cachedCtx) =>
          if now - cachedTime < contextCacheTtl then some cachedCtx else none
      | none => none
    match hit with
    | some cachedCtx =>
        let (a, h) := st.heap.alloc (st.heap.read cachedCtx)
        (a, ⟨h, st.cache⟩)
    | none =>
        let context := buildProcessedContext processors request
        let (a, h1) := st.heap.alloc context
        if isContextCacheable context then
          let (copyAddr, h2) := h1.alloc context
          (a, ⟨h2, evictInsert contextCacheSize st.cache cacheKey now copyAddr⟩)
        else
          (a, ⟨h1, st.cache⟩)

/-- Closed form of the TTL-hit path of `_get_processed_context`. -/
theorem getProcessedContext_hit (processors : List (Request → Ctx))
    (hne : processors ≠ []) (contextCacheSize : Nat) (contextCacheTtl : Int)
    (request : Request) (now : Int) (st : CtxCacheState) (t : Int) (a : Nat)
    (hcached : PyDict.lookup st.cache (getContextCacheKey request) = some (t, a))
    (httl : now - t < contextCacheTtl) :
    getProcessedContext processors contextCacheSize contextCacheTtl request now st =
      ((st.heap.alloc (st.heap.read a)).1,
       ⟨(st.heap.alloc (st.heap.read a)).2, st.cache⟩) := by
  unfold getProcessedContext
  have hie : processors.isEmpty = false := by
    cases processors with
    | nil => exact absurd rfl hne
    | cons x xs => rfl
  rw [hie]
  simp only [Bool.false_eq_true, if_false, hcached, httl, if_true]

/-- C3: a context-cache hit within TTL returns a fresh copy of the cached
context (a newly allocated dict, never the stored one), so arbitrarily
overwriting the returned mapping leaves the cached entry, and hence what a
second hit within the TTL window observes, unchanged. -/
theorem context_cache_hit_isolated (processors : List (Request → Ctx))
    (hne : processors ≠ []) (contextCacheSize : Nat) (contextCacheTtl : Int)
    (request : Request) (now : Int) (st : CtxCacheState) (t : Int) (a : Nat)
    (hcached : PyDict.lookup st.cache (getContextCacheKey request) = some (t, a))
    (httl : now - t < contextCacheTtl)
    (hvalid : a < st.heap.cells.length) :
    (getProcessedContext processors contextCacheSize contextCacheTtl request now
        st).1 ≠ a ∧
    (getProcessedContext processors contextCacheSize contextCacheTtl request now
        st).2.cache = st.cache ∧
    (getProcessedContext processors contextCacheSize contextCacheTtl request now
          st).2.heap.read
        (getProcessedContext processors contextCacheSize contextCacheTtl request
          now st).1 = st.heap.read a ∧
    ∀ (mutated : Ctx) (now2 : Int), now2 - t < contextCacheTtl →
      ((getProcessedContext processors contextCacheSize contextCacheTtl request
          now2
          ⟨(getProcessedContext processors contextCacheSize contextCacheTtl
              request now st).2.heap.write
            (getProcessedContext processors contextCacheSize contextCacheTtl
              request now st).1 mutated,
            (getProcessedContext processors contextCacheSize contextCacheTtl
              request now st).2.cache⟩).2.heap.read
        (getProcessedContext processors contextCacheSize contextCacheTtl request
          now2
          ⟨(getProcessedContext processors contextCacheSize contextCacheTtl
              request now st).2.heap.write
            (getProcessedContext processors contextCacheSize contextCacheTtl
              request now st).1 mutated,
            (getProcessedContext processors contextCacheSize contextCacheTtl
              request now st).2.cache⟩).1) = st.heap.read a := by
  rw [getProcessedContext_hit processors hne contextCacheSize contextCacheTtl
    request now st t a hcached httl]
  refine ⟨?_, rfl, ?_, ?_⟩
  · show st.heap.cells.length ≠ a
    omega
  · exact st.heap.read_alloc_self (st.heap.read a)
  · intro mutated now2 httl2
    show (getProcessedContext processors contextCacheSize contextCacheTtl
        request now2
        ⟨((st.heap.alloc (st.heap.read a)).2).write st.heap.cells.length mutated,
          st.cache⟩).2.heap.read
      (getProcessedContext processors contextCacheSize contextCacheTtl request
        now2
        ⟨((st.heap.alloc (st.heap.read a)).2).write st.heap.cells.length mutated,
          st.cache⟩).1 = st.heap.read a
    rw [getProcessedContext_hit processors hne contextCacheSize contextCacheTtl
      request now2
      ⟨((st.heap.alloc (st.heap.read a)).2).write st.heap.cells.length mutated,
        st.cache⟩ t a hcached httl2]
    rw [CtxHeap.read_alloc_self]
    rw [CtxHeap.read_write_ne _ a st.heap.cells.length mutated (by omega)]
    exact st.heap.read_alloc_of_lt (st.heap.read a) a hvalid

/-- Witness for C3 on a one-entry cache. -/
theorem context_cache_hit_isolated_witness :
    (getProcessedContext [fun _ => [("x", ⟨false, false, 1⟩)]] 128 300
        ⟨some "GET", some "/p", "req"⟩ 1
        ⟨⟨[[("x", ⟨false, false, 1⟩)]]⟩, [("GET:/p", (0, 0))]⟩).1 ≠ 0 ∧
    (getProcessedContext [fun _ => [("x", ⟨false, false, 1⟩)]] 128 300
        ⟨some "GET", some "/p", "req"⟩ 1
        ⟨⟨[[("x", ⟨false, false, 1⟩)]]⟩, [("GET:/p", (0, 0))]⟩).2.cache =
      [("GET:/p", (0, 0))] ∧
    (getProcessedContext [fun _ => [("x", ⟨false, false, 1⟩)]] 128 300
        ⟨some "GET", some "/p", "req"⟩ 1
        ⟨⟨[[("x", ⟨false, false, 1⟩)]]⟩, [("GET:/p", (0, 0))]⟩).2.heap.read
      (getProcessedContext [fun _ => [("x", ⟨false, false, 1⟩)]] 128 300
        ⟨some "GET", some "/p", "req"⟩ 1
        ⟨⟨[[("x", ⟨false, false, 1⟩)]]⟩, [("GET:/p", (0, 0))]⟩).1 =
      CtxHeap.read ⟨[[("x", ⟨false, false, 1⟩)]]⟩ 0 ∧
    ∀ (mutated : Ctx) (now2 : Int), now2 - 0 < 300 →
      ((getProcessedContext [fun _ => [("x", ⟨false, false, 1⟩)]] 128 300
          ⟨some "GET", some "/p", "req"⟩ now2
          ⟨(getProcessedContext [fun _ => [("x", ⟨false, false, 1⟩)]] 128 300
              ⟨some "GET", some "/p", "req"⟩ 1
              ⟨⟨[[("x", ⟨false, false, 1⟩)]]⟩,
                [("GET:/p", (0, 0))]⟩).2.heap.write
            (getProcessedContext [fun _ => [("x", ⟨false, false, 1⟩)]] 128 300
              ⟨some "GET", some "/p", "req"⟩ 1
              ⟨⟨[[("x", ⟨false, false, 1⟩)]]⟩, [("GET:/p", (0, 0))]⟩).1 mutated,
            (getProcessedContext [fun _ => [("x", ⟨false, false, 1⟩)]] 128 300
              ⟨some "GET", some "/p", "req"⟩ 1
              ⟨⟨[[("x", ⟨false, false, 1⟩)]]⟩,
                [("GET:/p", (0, 0))]⟩).2.cache⟩).2.heap.read
        (getProcessedContext [fun _ => [("x", ⟨false, false, 1⟩)]] 128 300
          ⟨some "GET", some "/p", "req"⟩ now2
          ⟨(getProcessedContext [fun _ => [("x", ⟨false, false, 1⟩)]] 128 300
              ⟨some "GET", some "/p", "req"⟩ 1
              ⟨⟨[[("x", ⟨false, false, 1⟩)]]⟩,
                [("GET:/p", (0, 0))]⟩).2.heap.write
            (getProcessedContext [fun _ => [("x", ⟨false, false, 1⟩)]] 128 300
              ⟨some "GET", some "/p", "req"⟩ 1
              ⟨⟨[[("x", ⟨false, false, 1⟩)]]⟩, [("GET:/p", (0, 0))]⟩).1 mutated,
            (getProcessedContext [fun _ => [("x", ⟨false, false, 1⟩)]] 128 300
              ⟨some "GET", some "/p", "req"⟩ 1
              ⟨⟨[[("x", ⟨false, false, 1⟩)]]⟩,
                [("GET:/p", (0, 0))]⟩).2.cache⟩).1) =
        CtxHeap.read ⟨[[("x", ⟨false, false, 1⟩)]]⟩ 0 :=
  context_cache_hit_isolated [fun _ => [("x", ⟨false, false, 1⟩)]]
    (by simp) 128 300 ⟨some "GET", some "/p", "req"⟩ 1
    ⟨⟨[[("x", ⟨false, false, 1⟩)]]⟩, [("GET:/p", (0, 0))]⟩ 0 0 (by rfl)
    (by decide) (by decide)

/-- C7: a processed context is inserted into the context cache only when it is
cacheable; when some value of the built context exposes both a `method` and a
`url` attribute the cache is left untouched. -/
theorem uncacheable_context_never_inserted (processors : List (Request → Ctx))
    (contextCacheSize : Nat) (contextCacheTtl : Int) (request : Request)
    (now : Int) (st : CtxCacheState)
    (h : isContextCacheable (buildProcessedContext processors request) = false) :
    (getProcessedContext processors contextCacheSize contextCacheTtl request now
        st).2.cache = st.cache := by
  unfold getProcessedContext
  by_cases hie : processors.isEmpty
  · simp [hie]
  · simp only [Bool.not_eq_true] at hie
    rw [hie]
    simp only [Bool.false_eq_true, if_false]
    cases hl : PyDict.lookup st.cache (getContextCacheKey request) with
    | none => simp [hl, h]
    | some p =>
        obtain ⟨tt, aa⟩ := p
        by_cases httl : now - tt < contextCacheTtl
        · simp [hl, httl]
        · simp [hl, httl, h]

/-- Witness for C7: a context holding a request-like value is not cached. -/
theorem uncacheable_context_never_inserted_witness :
    (getProcessedContext [fun _ => [("request", ⟨true, true, 0⟩)]] 128 300
        ⟨some "GET", some "/p", "req"⟩ 5 ⟨⟨[]⟩, []⟩).2.cache = [] :=
  uncacheable_context_never_inserted [fun _ => [("request", ⟨true, true, 0⟩)]]
    128 300 ⟨some "GET", some "/p", "req"⟩ 5 ⟨⟨[]⟩, []⟩ (by decide)

/-! ### The context object pool (`_get_pooled_context` / `_return_to_pool`)

The Python pool is a `list` of dict objects used as a stack (`append`/`pop`
operate on the end); we keep the stack top at the head of the list. -/

/-- `_get_pooled_context` (responses.py 153-159): pop a pooled dict, clear it
and repopulate it with `data`; or, with an empty pool, return a fresh copy of
`data`. -/
def getPooledContext (heap : CtxHeap) (pool : List Nat) (data : Ctx) :
    Nat × CtxHeap × List Nat :=
  match pool with
  | ctx :: rest => (ctx, heap.write ctx (PyDict.update [] data), rest)
  | [] =>
      let (a, h) := heap.alloc data
      (a, h, [])

/-- `_return_to_pool` (responses.py 161-164): below capacity, clear the dict
and push it back; at capacity, discard it. -/
def returnToPool (heap : CtxHeap) (pool : List Nat) (contextPoolSize : Nat)
    (ctx : Nat) : CtxHeap × List Nat :=
  if pool.length < contextPoolSize then (heap.write ctx [], ctx :: pool)
  else (heap, pool)

theorem PyDict.lookup_append {α : Type} (d d2 : List (String × α)) (k : String) :
    PyDict.lookup (d ++ d2) k =
      match PyDict.lookup d k with
      | some v => some v
      | none => PyDict.lookup d2 k := by
  induction d with
  | nil => simp [PyDict.lookup]
  | cons hd tl ih =>
      by_cases h : hd.1 = k
      · simp [PyDict.lookup, h]
      · simp [PyDict.lookup, h, ih]

theorem PyDict.set_eq_append_of_not_contains {α : Type} (d : List (String × α))
    (k : String) (v : α) (h : PyDict.contains d k = false) :
    PyDict.set d k v = d ++ [(k, v)] := by
  induction d with
  | nil => simp [PyDict.set]
  | cons hd tl ih =>
      unfold PyDict.contains PyDict.lookup at h
      by_cases hk : hd.1 = k
      · simp [hk] at h
      · simp only [hk, if_false] at h
        simp [PyDict.set, hk, ih h]

theorem PyDict.update_eq_append {α : Type} (data : List (String × α)) :
    ∀ (acc : List (String × α)), (data.map Prod.fst).Nodup →
      (∀ kv ∈ data, PyDict.contains acc kv.1 = false) →
      PyDict.update acc data = acc ++ data := by
  induction data with
  | nil => intro acc _ _; simp [PyDict.update]
  | cons e rest ih =>
      intro acc hnd hfresh
      have step : PyDict.update acc (e :: rest) =
          PyDict.update (PyDict.set acc e.1 e.2) rest := rfl
      rw [step, PyDict.set_eq_append_of_not_contains acc e.1 e.2
        (hfresh e (by simp))]
      have hnotin : e.1 ∉ rest.map Prod.fst := (List.nodup_cons.mp hnd).1
      have hfresh' : ∀ kv ∈ rest, PyDict.contains (acc ++ [(e.1, e.2)]) kv.1 = false := by
        intro kv hkv
        unfold PyDict.contains
        rw [PyDict.lookup_append]
        have h1 : PyDict.lookup acc kv.1 = none := by
          have := hfresh kv (List.mem_cons_of_mem e hkv)
          unfold PyDict.contains at this
          cases h : PyDict.lookup acc kv.1 with
          | none => rfl
          | some x => simp [h] at this
        have h2 : e.1 ≠ kv.1 := by
          intro hcontra
          exact hnotin (hcontra ▸ List.mem_map_of_mem Prod.fst hkv)
        simp [h1, PyDict.lookup, h2]
      rw [ih (acc ++ [(e.1, e.2)]) (List.nodup_cons.mp hnd).2 hfresh']
      simp

theorem PyDict.update_nil {α : Type} (data : List (String × α))
    (hnd : (data.map Prod.fst).Nodup) : PyDict.update [] data = data := by
  rw [PyDict.update_eq_append data [] hnd
    (by intro kv _; simp [PyDict.contains, PyDict.lookup])]
  simp

/-- An interleaving of checkout and release operations on the pool. -/
inductive PoolOp where
  | checkout (data : Ctx)
  | release (ctx : Nat)

def applyPoolOp (contextPoolSize : Nat) (s : CtxHeap × List Nat) (op : PoolOp) :
    CtxHeap × List Nat :=
  match op with
  | .checkout data =>
      let r := getPooledContext s.1 s.2 data
      (r.2.1, r.2.2)
  | .release ctx => returnToPool s.1 s.2 contextPoolSize ctx

theorem applyPoolOp_length_le (contextPoolSize : Nat) (s : CtxHeap × List Nat)
    (op : PoolOp) (hs : s.2.length ≤ contextPoolSize) :
    (applyPoolOp contextPoolSize s op).2.length ≤ contextPoolSize := by
  cases op with
  | checkout data =>
      cases hp : s.2 with
      | nil => simp [applyPoolOp, getPooledContext, hp]
      | cons x xs =>
          simp only [applyPoolOp, getPooledContext, hp]
          rw [hp] at hs
          simp at hs ⊢
          omega
  | release ctx =>
      unfold applyPoolOp returnToPool
      by_cases hlt : s.2.length < contextPoolSize
      · simp [hlt]
        omega
      · simp [hlt]
        exact hs

/-- C8: `release` pushes a cleared mapping only below capacity and silently
discards it at capacity, so no sequence of checkout/release operations ever
grows the pool beyond the configured size. -/
theorem pool_release_bounded (heap : CtxHeap) (pool : List Nat)
    (contextPoolSize : Nat) (ctx : Nat) (h0 : CtxHeap) (ops : List PoolOp) :
    (pool.length < contextPoolSize →
      returnToPool heap pool contextPoolSize ctx =
        (heap.write ctx [], ctx :: pool)) ∧
    (¬ pool.length < contextPoolSize →
      returnToPool heap pool contextPoolSize ctx = (heap, pool)) ∧
    (ops.foldl (applyPoolOp contextPoolSize) (h0, [])).2.length ≤
      contextPoolSize := by
  refine ⟨fun h => by simp [returnToPool, h], fun h => by simp [returnToPool, h], ?_⟩
  have main : ∀ (l : List PoolOp) (s : CtxHeap × List Nat),
      s.2.length ≤ contextPoolSize →
      (l.foldl (applyPoolOp contextPoolSize) s).2.length ≤ contextPoolSize := by
    intro l
    induction l with
    | nil => intro s hs; simpa using hs
    | cons op rest ih =>
        intro s hs
        simp only [List.foldl_cons]
        exact ih _ (applyPoolOp_length_le contextPoolSize s op hs)
  exact main ops (h0, []) (by simp)

/-- Witness for C8 with a pool of capacity 1. -/
theorem pool_release_bounded_witness :
    (([] : List Nat).length < 1 →
      returnToPool ⟨[[("a", ⟨false, false, 0⟩)]]⟩ [] 1 0 =
        ((⟨[[("a", ⟨false, false, 0⟩)]]⟩ : CtxHeap).write 0 [], [0])) ∧
    (¬ ([] : List Nat).length < 1 →
      returnToPool ⟨[[("a", ⟨false, false, 0⟩)]]⟩ [] 1 0 =
        (⟨[[("a", ⟨false, false, 0⟩)]]⟩, [])) ∧
    ([PoolOp.release 0, PoolOp.release 1, PoolOp.checkout [], PoolOp.release 0,
        PoolOp.release 1].foldl (applyPoolOp 1) (⟨[[], []]⟩, [])).2.length ≤ 1 :=
  pool_release_bounded ⟨[[("a", ⟨false, false, 0⟩)]]⟩ [] 1 0 ⟨[[], []]⟩
    [PoolOp.release 0, PoolOp.release 1, PoolOp.checkout [], PoolOp.release 0,
      PoolOp.release 1]

/-- Pool well-formedness: no duplicate objects and every pooled dict is empty
(addresses valid, contents cleared). -/
def PoolWF (heap : CtxHeap) (pool : List Nat) : Prop :=
  pool.Nodup ∧ ∀ a ∈ pool, a < heap.cells.length ∧ heap.read a = []

/-- C9: pooled mappings are always empty — a released dict is cleared before
being pushed back, a checked-out dict is cleared again before being
repopulated — so the dict a checkout hands out holds exactly the new render's
data and nothing from any earlier render. -/
theorem pooled_contexts_empty (heap : CtxHeap) (pool : List Nat) (data : Ctx)
    (cap ctx : Nat) (hwf : PoolWF heap pool)
    (hnd : (data.map Prod.fst).Nodup)
    (hctx : ctx < heap.cells.length) (hnotin : ctx ∉ pool) :
    ((getPooledContext heap pool data).2.1).read
        (getPooledContext heap pool data).1 = data ∧
    PoolWF (getPooledContext heap pool data).2.1
      (getPooledContext heap pool data).2.2 ∧
    PoolWF (returnToPool heap pool cap ctx).1 (returnToPool heap pool cap ctx).2 := by
  obtain ⟨hndpool, hmem⟩ := hwf
  refine ⟨?_, ?_, ?_⟩
  · cases hp : pool with
    | nil =>
        simp only [getPooledContext]
        exact heap.read_alloc_self data
    | cons a rest =>
        simp only [getPooledContext]
        have ha : a < heap.cells.length := (hmem a (by simp [hp])).1
        rw [CtxHeap.read_write_self heap a _ ha]
        exact PyDict.update_nil data hnd
  · cases hp : pool with
    | nil =>
        simp only [getPooledContext]
        exact ⟨List.nodup_nil, by intro a ha; simp at ha⟩
    | cons a rest =>
        simp only [getPooledContext]
        subst hp
        refine ⟨(List.nodup_cons.mp hndpool).2, ?_⟩
        intro b hb
        have hba : b ≠ a := by
          intro hcontra
          exact (List.nodup_cons.mp hndpool).1 (hcontra ▸ hb)
        constructor
        · rw [CtxHeap.length_write]
          exact (hmem b (List.mem_cons_of_mem a hb)).1
        · rw [CtxHeap.read_write_ne heap b a _ hba]
          exact (hmem b (List.mem_cons_of_mem a hb)).2
  · unfold returnToPool
    by_cases hlt : pool.length < cap
    · simp only [hlt, if_true]
      refine ⟨List.nodup_cons.mpr ⟨hnotin, hndpool⟩, ?_⟩
      intro b hb
      rcases List.mem_cons.mp hb with hb | hb
      · subst hb
        exact ⟨by rw [CtxHeap.length_write]; exact hctx,
          CtxHeap.read_write_self heap b [] hctx⟩
      · have hbc : b ≠ ctx := by
          intro hcontra
          exact hnotin (hcontra ▸ hb)
        exact ⟨by rw [CtxHeap.length_write]; exact (hmem b hb).1,
          by rw [CtxHeap.read_write_ne heap b ctx [] hbc]; exact (hmem b hb).2⟩
    · simp only [hlt, if_false]
      exact ⟨hndpool, hmem⟩

/-- Witness for C9: releasing a dirty dict clears it; checking out from the
pool hands back exactly the new data. -/
theorem pooled_contexts_empty_witness :
    ((getPooledContext ⟨[[], [("old", ⟨false, false, 3⟩)]]⟩ [0]
          [("k", ⟨false, false, 7⟩)]).2.1).read
        (getPooledContext ⟨[[], [("old", ⟨false, false, 3⟩)]]⟩ [0]
          [("k", ⟨false, false, 7⟩)]).1 = [("k", ⟨false, false, 7⟩)] ∧
    PoolWF (getPooledContext ⟨[[], [("old", ⟨false, false, 3⟩)]]⟩ [0]
        [("k", ⟨false, false, 7⟩)]).2.1
      (getPooledContext ⟨[[], [("old", ⟨false, false, 3⟩)]]⟩ [0]
        [("k", ⟨false, false, 7⟩)]).2.2 ∧
    PoolWF (returnToPool ⟨[[], [("old", ⟨false, false, 3⟩)]]⟩ [0] 10 1).1
      (returnToPool ⟨[[], [("old", ⟨false, false, 3⟩)]]⟩ [0] 10 1).2 :=
  pooled_contexts_empty ⟨[[], [("old", ⟨false, false, 3⟩)]]⟩ [0]
    [("k", ⟨false, false, 7⟩)] 10 1
    ⟨by decide, by decide⟩ (by decide) (by decide) (by decide)

/-! ### Fragment rendering (`render_fragment` and the block cache) -/

/-- A compiled template unit: its `blocks` mapping sends a block name to the
compiled block render function, identified here by a numeric id. -/
structure Template where
  blocks : List (String × Nat)
deriving DecidableEq, Repr

/-- The async environment as the fragment path observes it: the resolvable
templates, plus the semantics of the compiled block render functions (id ↦
the finite chunk stream yielded on a context, or the text of the exception the
block's execution raises — block bodies raise generic exceptions;
`BlockNotFoundError` is raised only by the lookup paths of this module). -/
structure TemplateEnv where
  templates : List (String × Template)
  blockImpl : Nat → Ctx → Except String (List String)

/-- The exceptions the fragment path can surface. -/
inductive Err where
  | blockNotFound (blockName templateName : String)
  | runtimeError (msg : String)
deriving DecidableEq, Repr

/-- The message built by `BlockNotFoundError.__init__` (responses.py 26-35);
Python's `repr` of a quote-free name is the name wrapped in single quotes. -/
def blockNotFoundMessage (blockName templateName : String) : String :=
  "Block '" ++ blockName ++ "' not found in template '" ++ templateName ++ "'"

/-- `str(e)` of a modelled exception. -/
def errStr : Err → String
  | .blockNotFound b t => blockNotFoundMessage b t
  | .runtimeError m => m

/-- `get_template_async` (responses.py 329-334): any loading failure is
wrapped into a `RuntimeError` naming the template. -/
def getTemplateAsync (env : TemplateEnv) (name : String) : Except Err Template :=
  match PyDict.lookup env.templates name with
  | some template => .ok template
  | none => .error (.runtimeError ("Error loading template '" ++ name ++ "'"))

/-- `_preload_template_blocks` (responses.py 192-194). -/
def preloadTemplateBlocks (templateBlocks : List (String × List String))
    (template : Template) (templateName : String) : List (String × List String) :=
  if PyDict.contains templateBlocks templateName then templateBlocks
  else PyDict.set templateBlocks templateName (template.blocks.map Prod.fst)

/-- `_validate_block_exists` (responses.py 196-199). -/
def validateBlockExists (templateBlocks : List (String × List String))
    (templateName blockName : String) : Bool :=
  match PyDict.lookup templateBlocks templateName with
  | some blockSet => blockSet.contains blockName
  | none => true

/-- `_should_use_stringio` (responses.py 201-202). -/
def shouldUseStringIO (fragmentStringioThreshold estimatedSize : Nat) : Bool :=
  fragmentStringioThreshold < estimatedSize

/-- Size of `str(ctx_data)` (responses.py 312).  Its exact value only selects
between the two assembly branches of `_render_block_content`, which produce
identical output, so any monotone size measure is adequate. -/
def pyStrLen (c : Ctx) : Nat :=
  2 + c.foldl (fun n kv => n + kv.1.length + 8) 0

/-- The block/fragment-cache state of `AsyncJinja2Templates`. -/
structure FragmentState where
  blockCache : List (String × (Int × Nat))
  templateBlocks : List (String × List String)
deriving DecidableEq, Repr

/-- `_get_cached_block_func` (responses.py 166-190).  The mutated state is
returned alongside the result (Python state survives a raise). -/
def getCachedBlockFunc (env : TemplateEnv) (fragmentCacheSize : Nat)
    (fragmentCacheTtl : Int) (now : Int) (st : FragmentState)
    (templateName blockName : String) : Except Err Nat × FragmentState :=
  let cacheKey := templateName ++ ":" ++ blockName
  let hit : Option Nat :=
    match PyDict.lookup st.blockCache cacheKey with
    | some (cachedTime, blockFunc) =>
        if now - cachedTime < fragmentCacheTtl then some blockFunc else none
    | none => none
  match hit with
  | some blockFunc => (.ok blockFunc, st)
  | none =>
      match getTemplateAsync env templateName with
      | .error e => (.error e, st)
      | .ok template =>
          match PyDict.lookup template.blocks blockName with
          | none => (.error (.blockNotFound blockName templateName), st)
          | some blockFunc =>
              (.ok blockFunc,
               ⟨evictInsert fragmentCacheSize st.blockCache cacheKey now
                  blockFunc,
                st.templateBlocks⟩)

/-- `_get_block_function_and_template` (responses.py 233-266).  On a TTL hit
the cached function is returned untouched (no timestamp refresh) but the
template is still loaded afresh for context creation; on a miss the template's
block set is preloaded, the block looked up (raising `BlockNotFoundError` when
absent) and the function inserted with eviction. -/
def getBlockFunctionAndTemplate (env : TemplateEnv) (fragmentCacheSize : Nat)
    (fragmentCacheTtl : Int) (now : Int) (st : FragmentState)
    (templateName blockName : String) :
    Except Err (Nat × Template) × FragmentState :=
  let cacheKey := templateName ++ ":" ++ blockName
  let cachedFunc : Option Nat :=
    match PyDict.lookup st.blockCache cacheKey with
    | some (cachedTime, f) =>
        if now - cachedTime < fragmentCacheTtl then some f else none
    | none => none
  match cachedFunc with
  | some blockRenderFunc =>
      match getTemplateAsync env templateName with
      | .ok template => (.ok (blockRenderFunc, template), st)
      | .error e => (.error e, st)
  | none =>
      match getTemplateAsync env templateName with
      | .error e => (.error e, st)
      | .ok template =>
          let templateBlocks :=
            preloadTemplateBlocks st.templateBlocks template templateName
          match PyDict.lookup template.blocks blockName with
          | none =>
              (.error (.blockNotFound blockName templateName),
               ⟨st.blockCache, templateBlocks⟩)
          | some blockRenderFunc =>
              (.ok (blockRenderFunc, template),
               ⟨evictInsert fragmentCacheSize st.blockCache cacheKey now
                  blockRenderFunc,
                templateBlocks⟩)

/-- `template.new_context(ctx)`: the render context over the given variables;
only the variable mapping is relevant to the modelled block semantics. -/
def newContext (_template : Template) (ctx : Ctx) : Ctx := ctx

/-- `self.env.handle_exception()` — jinja2's `Environment.handle_exception`
re-raises the in-flight exception (with a rewritten traceback), so its effect
is to propagate the same exception. -/
def handleException (e : Err) : Except Err String := .error e

/-- `_render_block_content` (responses.py 268-286): both the StringIO branch
and the concat branch write the block's yielded chunks in order. -/
def renderBlockContent (env : TemplateEnv) (fragmentStringioThreshold : Nat)
    (blockRenderFunc : Nat) (templateCtx : Ctx) (estimatedSize : Nat) :
    Except String String :=
  if shouldUseStringIO fragmentStringioThreshold estimatedSize then
    match env.blockImpl blockRenderFunc templateCtx with
    | .error e => .error e
    | .ok chunks => .ok (String.join chunks)
  else
    match env.blockImpl blockRenderFunc templateCtx with
    | .error e => .error e
    | .ok chunks => .ok (String.join chunks)

/-- Full mutable state touched by `render_fragment`. -/
structure AJState where
  frag : FragmentState
  pool : List Nat
  heap : CtxHeap

/-- `render_fragment` (responses.py 288-327): fast-path existence check, pooled
context checkout, cached block lookup, content rendering funnelled through
`handle_exception`, context release in `finally`, `BlockNotFoundError`
re-raised as-is, every other exception wrapped into a `RuntimeError`. -/
def renderFragment (env : TemplateEnv) (fragmentCacheSize : Nat)
    (fragmentCacheTtl : Int) (contextPoolSize fragmentStringioThreshold : Nat)
    (now : Int) (st : AJState) (templateName blockName : String)
    (ctxData : Ctx) : Except Err String × AJState :=
  if validateBlockExists st.frag.templateBlocks templateName blockName = false then
    (.error (.blockNotFound blockName templateName), st)
  else
    let pooled := getPooledContext st.heap st.pool ctxData
    let ctx := pooled.1
    let heap1 := pooled.2.1
    let pool1 := pooled.2.2
    let r := getBlockFunctionAndTemplate env fragmentCacheSize fragmentCacheTtl
      now st.frag templateName blockName
    let inner : Except Err String :=
      match r.1 with
      | .error e => handleException e
      | .ok (blockRenderFunc, template) =>
          let templateCtx := newContext template (heap1.read ctx)
          let estimatedSize := pyStrLen ctxData
          match renderBlockContent env fragmentStringioThreshold blockRenderFunc
              templateCtx estimatedSize with
          | .ok content => .ok content
          | .error e => handleException (.runtimeError e)
    let released := returnToPool heap1 pool1 contextPoolSize ctx
    let st' : AJState := ⟨r.2, released.2, released.1⟩
    match inner with
    | .ok content => (.ok content, st')
    | .error (.blockNotFound b t) => (.error (.blockNotFound b t), st')
    | .error e =>
        (.error (.runtimeError ("Error rendering fragment '" ++ blockName ++
          "' in template '" ++ templateName ++ "': " ++ errStr e)), st')

/-- C5: for a (template, block) key present in the block cache, a request
within the TTL returns exactly the cached render-function object — through
both `_get_block_function_and_template` and `_get_cached_block_func` — and
leaves the whole cache state unchanged, so in particular the entry's stored
timestamp is not refreshed. -/
theorem block_cache_hit_identity (env : TemplateEnv) (fragmentCacheSize : Nat)
    (fragmentCacheTtl : Int) (now : Int) (st : FragmentState)
    (templateName blockName : String) (t : Int) (f : Nat) (template : Template)
    (hcached : PyDict.lookup st.blockCache (templateName ++ ":" ++ blockName) =
      some (t, f))
    (httl : now - t < fragmentCacheTtl)
    (htmpl : PyDict.lookup env.templates templateName = some template) :
    getBlockFunctionAndTemplate env fragmentCacheSize fragmentCacheTtl now st
        templateName blockName = (.ok (f, template), st) ∧
    getCachedBlockFunc env fragmentCacheSize fragmentCacheTtl now st
        templateName blockName = (.ok f, st) := by
  constructor
  · unfold getBlockFunctionAndTemplate
    simp only [hcached, httl, if_true, getTemplateAsync, htmpl]
  · unfold getCachedBlockFunc
    simp only [hcached, httl, if_true]

/-- Witness for C5 on a one-entry block cache. -/
theorem block_cache_hit_identity_witness :
    getBlockFunctionAndTemplate
        ⟨[("page.html", ⟨[("content", 3)]⟩)], fun _ _ => .ok []⟩ 64 600 10
        ⟨[("page.html:content", (5, 3))], []⟩ "page.html" "content" =
      (.ok (3, ⟨[("content", 3)]⟩), ⟨[("page.html:content", (5, 3))], []⟩) ∧
    getCachedBlockFunc
        ⟨[("page.html", ⟨[("content", 3)]⟩)], fun _ _ => .ok []⟩ 64 600 10
        ⟨[("page.html:content", (5, 3))], []⟩ "page.html" "content" =
      (.ok 3, ⟨[("page.html:content", (5, 3))], []⟩) :=
  block_cache_hit_identity
    ⟨[("page.html", ⟨[("content", 3)]⟩)], fun _ _ => .ok []⟩ 64 600 10
    ⟨[("page.html:content", (5, 3))], []⟩ "page.html" "content" 5 3
    ⟨[("content", 3)]⟩ (by rfl) (by decide) (by rfl)

/-- C10: the fast-path pre-check accepts every template whose block set has
not been recorded; it can reject a pair only once `_preload_template_blocks`
has recorded that template's block set, and what gets recorded is exactly the
template's compiled block-name set. -/
theorem validate_block_fast_path (templateBlocks : List (String × List String))
    (template : Template) (templateName blockName : String) :
    (PyDict.lookup templateBlocks templateName = none →
      validateBlockExists templateBlocks templateName blockName = true) ∧
    (validateBlockExists templateBlocks templateName blockName = false →
      ∃ blockSet, PyDict.lookup templateBlocks templateName = some blockSet ∧
        blockSet.contains blockName = false) ∧
    (PyDict.lookup templateBlocks templateName = none →
      PyDict.lookup (preloadTemplateBlocks templateBlocks template templateName)
        templateName = some (template.blocks.map Prod.fst)) := by
  refine ⟨?_, ?_, ?_⟩
  · intro h
    unfold validateBlockExists
    rw [h]
  · intro h
    unfold validateBlockExists at h
    cases hl : PyDict.lookup templateBlocks templateName with
    | none => rw [hl] at h; simp at h
    | some blockSet =>
        rw [hl] at h
        exact ⟨blockSet, rfl, h⟩
  · intro h
    unfold preloadTemplateBlocks
    have hc : PyDict.contains templateBlocks templateName = false := by
      unfold PyDict.contains
      rw [h]
      rfl
    rw [hc]
    simp only [Bool.false_eq_true, if_false]
    exact PyDict.lookup_set_self templateBlocks templateName _

/-- Witness for C10 with an unrecorded and a recorded template. -/
theorem validate_block_fast_path_witness :
    (PyDict.lookup ([] : List (String × List String)) "page.html" = none →
      validateBlockExists [] "page.html" "missing" = true) ∧
    (validateBlockExists [] "page.html" "missing" = false →
      ∃ blockSet, PyDict.lookup ([] : List (String × List String)) "page.html" =
        some blockSet ∧ blockSet.contains "missing" = false) ∧
    (PyDict.lookup ([] : List (String × List String)) "page.html" = none →
      PyDict.lookup (preloadTemplateBlocks [] ⟨[("content", 3)]⟩ "page.html")
        "page.html" = some ((⟨[("content", 3)]⟩ : Template).blocks.map Prod.fst)) :=
  validate_block_fast_path [] ⟨[("content", 3)]⟩ "page.html" "missing"

theorem gbft_of_missing (env : TemplateEnv) (fragmentCacheSize : Nat)
    (fragmentCacheTtl : Int) (now : Int) (st : FragmentState)
    (templateName blockName : String) (template : Template)
    (htmpl : PyDict.lookup env.templates templateName = some template)
    (hnc : PyDict.lookup st.blockCache (templateName ++ ":" ++ blockName) = none)
    (hmiss : PyDict.lookup template.blocks blockName = none) :
    getBlockFunctionAndTemplate env fragmentCacheSize fragmentCacheTtl now st
        templateName blockName =
      (.error (.blockNotFound blockName templateName),
       ⟨st.blockCache,
        preloadTemplateBlocks st.templateBlocks template templateName⟩) := by
  unfold getBlockFunctionAndTemplate
  simp only [hnc, getTemplateAsync, htmpl, hmiss]

theorem gbft_of_present (env : TemplateEnv) (fragmentCacheSize : Nat)
    (fragmentCacheTtl : Int) (now : Int) (st : FragmentState)
    (templateName blockName : String) (template : Template) (f' : Nat)
    (htmpl : PyDict.lookup env.templates templateName = some template)
    (hpres : PyDict.lookup template.blocks blockName = some f') :
    ∃ f st', getBlockFunctionAndTemplate env fragmentCacheSize fragmentCacheTtl
      now st templateName blockName = (.ok (f, template), st') := by
  unfold getBlockFunctionAndTemplate
  cases hl : PyDict.lookup st.blockCache (templateName ++ ":" ++ blockName) with
  | none =>
      simp only [hl, getTemplateAsync, htmpl, hpres]
      exact ⟨f', _, rfl⟩
  | some p =>
      obtain ⟨t, f⟩ := p
      by_cases httl : now - t < fragmentCacheTtl
      · simp only [hl, httl, if_true, getTemplateAsync, htmpl]
        exact ⟨f, st, rfl⟩
      · simp only [hl, httl, if_false, getTemplateAsync, htmpl, hpres]
        exact ⟨f', _, rfl⟩

/-- C1: under the reachable-state invariants — the template resolves, a block
cache entry for this (template, block) key certifies the block's existence,
and any recorded block set matches the template's compiled `blocks` mapping —
`render_fragment` surfaces `BlockNotFoundError (blockName, templateName)` to
the caller exactly when `blockName` is absent from the template's compiled
`blocks` mapping, and the error's message contains both names verbatim. -/
theorem render_fragment_block_not_found_iff (env : TemplateEnv)
    (fragmentCacheSize : Nat) (fragmentCacheTtl : Int)
    (contextPoolSize fragmentStringioThreshold : Nat) (now : Int) (st : AJState)
    (templateName blockName : String) (ctxData : Ctx) (template : Template)
    (htmpl : PyDict.lookup env.templates templateName = some template)
    (hcache : ∀ t f,
      PyDict.lookup st.frag.blockCache (templateName ++ ":" ++ blockName) =
        some (t, f) → PyDict.contains template.blocks blockName = true)
    (htb : ∀ blockSet,
      PyDict.lookup st.frag.templateBlocks templateName = some blockSet →
      blockSet.contains blockName = PyDict.contains template.blocks blockName) :
    ((renderFragment env fragmentCacheSize fragmentCacheTtl contextPoolSize
        fragmentStringioThreshold now st templateName blockName ctxData).1 =
      .error (.blockNotFound blockName templateName) ↔
      PyDict.lookup template.blocks blockName = none) ∧
    (∃ p q, blockNotFoundMessage blockName templateName = p ++ blockName ++ q) ∧
    (∃ p q, blockNotFoundMessage blockName templateName = p ++ templateName ++ q) := by
  refine ⟨?_, ?_, ?_⟩
  · by_cases hv : validateBlockExists st.frag.templateBlocks templateName blockName
    · -- fast path passes: outcome decided by the template's blocks mapping
      cases hmiss : PyDict.lookup template.blocks blockName with
      | none =>
          have hnc : PyDict.lookup st.frag.blockCache
              (templateName ++ ":" ++ blockName) = none := by
            cases hl : PyDict.lookup st.frag.blockCache
                (templateName ++ ":" ++ blockName) with
            | none => rfl
            | some p =>
                have := hcache p.1 p.2 (by rw [hl])
                unfold PyDict.contains at this
                rw [hmiss] at this
                simp at this
          have hr := gbft_of_missing env fragmentCacheSize fragmentCacheTtl now
            st.frag templateName blockName template htmpl hnc hmiss
          unfold renderFragment
          simp only [hv, Bool.true_eq_false, if_false, hr, handleException]
      | some f' =>
          obtain ⟨f, st', hr⟩ := gbft_of_present env fragmentCacheSize
            fragmentCacheTtl now st.frag templateName blockName template f'
            htmpl hmiss
          unfold renderFragment
          simp only [hv, Bool.true_eq_false, if_false, hr]
          cases hrb : renderBlockContent env fragmentStringioThreshold f
              (newContext template
                ((getPooledContext st.heap st.pool ctxData).2.1.read
                  (getPooledContext st.heap st.pool ctxData).1))
              (pyStrLen ctxData) with
          | ok content => simp [hrb]
          | error e => simp [hrb, handleException]
    · -- fast path rejects: only possible when the recorded set lacks the block
      have hbf : validateBlockExists st.frag.templateBlocks templateName
          blockName = false := by
        cases h : validateBlockExists st.frag.templateBlocks templateName blockName
        · rfl
        · exact absurd h hv
      have hmiss : PyDict.lookup template.blocks blockName = none := by
        unfold validateBlockExists at hbf
        cases hl : PyDict.lookup st.frag.templateBlocks templateName with
        | none => rw [hl] at hbf; simp at hbf
        | some blockSet =>
            rw [hl] at hbf
            simp only at hbf
            have := htb blockSet hl
            rw [hbf] at this
            unfold PyDict.contains at this
            cases hb : PyDict.lookup template.blocks blockName with
            | none => rfl
            | some x => rw [hb] at this; simp at this
      unfold renderFragment
      simp only [hbf, if_true]
      simp [hmiss]
  · exact ⟨"Block '", "' not found in template '" ++ templateName ++ "'",
      by simp [blockNotFoundMessage, String.append_assoc]⟩
  · exact ⟨"Block '" ++ blockName ++ "' not found in template '", "'",
      by simp [blockNotFoundMessage, String.append_assoc]⟩

/-- Witness for C1: a fresh instance, an existing template, a missing block. -/
theorem render_fragment_block_not_found_iff_witness :
    ((renderFragment ⟨[("page.html", ⟨[("content", 3)]⟩)], fun _ _ => .ok ["X"]⟩
        64 600 10 1024 0 ⟨⟨[], []⟩, [], ⟨[]⟩⟩ "page.html" "missing" []).1 =
      .error (.blockNotFound "missing" "page.html") ↔
      PyDict.lookup (⟨[("content", 3)]⟩ : Template).blocks "missing" = none) ∧
    (∃ p q, blockNotFoundMessage "missing" "page.html" = p ++ "missing" ++ q) ∧
    (∃ p q, blockNotFoundMessage "missing" "page.html" = p ++ "page.html" ++ q) :=
  render_fragment_block_not_found_iff
    ⟨[("page.html", ⟨[("content", 3)]⟩)], fun _ _ => .ok ["X"]⟩
    64 600 10 1024 0 ⟨⟨[], []⟩, [], ⟨[]⟩⟩ "page.html" "missing" []
    ⟨[("content", 3)]⟩ (by rfl)
    (fun t f h => Option.noConfusion h) (fun s h => Option.noConfusion h)

/-! ### Loader and bytecode cache (`loaders.py`, `bccache.py`) -/

/-- Compiled template code; opaque. -/
abbrev Code := Nat

/-- Raw bytes persisted in the remote store; opaque. -/
abbrev SerializedBytes := Nat

/-- jinja2 `Bucket`: cache key, source checksum, possibly-absent code. -/
structure Bucket where
  key : String
  checksum : Nat
  code : Option Code
deriving DecidableEq, Repr

/-- `Bucket.bytecode_from_string` — opaque deserialization, modelled as the
identity coding between the opaque byte and code values. -/
def bytecodeFromString (b : SerializedBytes) : Code := b

/-- `Bucket.bytecode_to_string` — opaque serialization. -/
def bytecodeToString (c : Code) : SerializedBytes := c

/-- `BytecodeCache.get_cache_key(name, filename)` — jinja2 derives the key
from the filename when one exists, else from the template name. -/
def getCacheKey (name : String) (filename : Option String) : String :=
  match filename with
  | some fn => fn
  | none => name

/-- `BytecodeCache.get_source_checksum(source)` — an opaque checksum of the
source text; only attached to the bucket, never part of the storage key. -/
def getSourceChecksum (source : String) : Nat := source.length

/-- The remote key-value store behind `AsyncRedisBytecodeCache`: `get`/`set`
over raw bytes. -/
structure RedisStore where
  entries : List (String × SerializedBytes)
deriving DecidableEq, Repr

structure AsyncRedisBytecodeCache where
  keyPrefix : String
deriving DecidableEq, Repr

/-- `get_bucket_name` (bccache.py 14-15). -/
def getBucketName (bcc : AsyncRedisBytecodeCache) (key : String) : String :=
  bcc.keyPrefix ++ ":" ++ key

/-- `load_bytecode` (bccache.py 17-20): fetch by bucket name; when bytes are
present, deserialize them into the bucket; absence leaves the bucket codeless
and raises nothing. -/
def loadBytecode (bcc : AsyncRedisBytecodeCache) (store : RedisStore)
    (keyBucket : Bucket) : Bucket :=
  match PyDict.lookup store.entries (getBucketName bcc keyBucket.key) with
  | some code => { keyBucket with code := some (bytecodeFromString code) }
  | none => keyBucket

/-- `dump_bytecode` (bccache.py 22-25): serialize the bucket's code and store
it unconditionally.  (`load` only calls it after assigning the bucket's code,
so the codeless branch is unreachable there.) -/
def dumpBytecode (bcc : AsyncRedisBytecodeCache) (store : RedisStore)
    (keyBucket : Bucket) : RedisStore :=
  match keyBucket.code with
  | some code =>
      ⟨PyDict.set store.entries (getBucketName bcc keyBucket.key)
        (bytecodeToString code)⟩
  | none => store

/-- `get_bucket` (bccache.py 27-38): build a fresh codeless bucket from key
and checksum, then try to populate it from the store. -/
def getBucket (bcc : AsyncRedisBytecodeCache) (store : RedisStore)
    (name : String) (filename : Option String) (source : String) : Bucket :=
  loadBytecode bcc store ⟨getCacheKey name filename, getSourceChecksum source, none⟩

/-- The environment as `AsyncBaseLoader.load` sees it: `get_source` results,
the attached bytecode cache, and `environment.compile`. -/
structure LoaderEnv where
  sources : List (String × (String × Option String))
  bytecodeCache : Option AsyncRedisBytecodeCache
  compile : String → String → Option String → Code

/-- Outcome of a successful `load`: the code the template unit is built from,
whether `environment.compile` was invoked, and the resulting remote store. -/
structure LoadOutcome where
  templateCode : Code
  compiled : Bool
  store : RedisStore
deriving DecidableEq, Repr

/-- `AsyncBaseLoader.load` (loaders.py 29-52): get the source (the base
`get_source` raises `TemplateNotFound` when there is none), consult the
bytecode cache's bucket, compile only when the bucket carries no code, and
persist freshly compiled code when the bucket had none. -/
def load (env : LoaderEnv) (store : RedisStore) (name : String) :
    Except String LoadOutcome :=
  match PyDict.lookup env.sources name with
  | none => .error ("TemplateNotFound: " ++ name)
  | some (source, filename) =>
      match env.bytecodeCache with
      | some bcc =>
          let bucket := getBucket bcc store name filename source
          match bucket.code with
          | some code => .ok ⟨code, false, store⟩
          | none =>
              let code := env.compile source name filename
              .ok ⟨code, true,
                dumpBytecode bcc store { bucket with code := some code }⟩
      | none => .ok ⟨env.compile source name filename, true, store⟩

/-- C6: with a bytecode cache attached, `load` skips compilation exactly when
the fetched bucket already carries code (bytes present in the store, leaving
the store untouched), compiles and persists the fresh code when the bucket
has none, and treats absent stored bytecode as a normal "must compile"
signal, not an error. -/
theorem load_bytecode_cache_behavior (env : LoaderEnv) (store : RedisStore)
    (name source : String) (filename : Option String)
    (bcc : AsyncRedisBytecodeCache)
    (hbcc : env.bytecodeCache = some bcc)
    (hsrc : PyDict.lookup env.sources name = some (source, filename)) :
    (∀ b, PyDict.lookup store.entries
        (getBucketName bcc (getCacheKey name filename)) = some b →
      load env store name = .ok ⟨bytecodeFromString b, false, store⟩) ∧
    (PyDict.lookup store.entries
        (getBucketName bcc (getCacheKey name filename)) = none →
      load env store name = .ok ⟨env.compile source name filename, true,
        ⟨PyDict.set store.entries (getBucketName bcc (getCacheKey name filename))
          (bytecodeToString (env.compile source name filename))⟩⟩) := by
  constructor
  · intro b hb
    unfold load
    simp only [hsrc, hbcc, getBucket, loadBytecode, hb]
  · intro hb
    unfold load
    simp only [hsrc, hbcc, getBucket, loadBytecode, hb, dumpBytecode]

/-- Witness for C6: a store holding bytecode for the template, and an empty
store. -/
theorem load_bytecode_cache_behavior_witness :
    (∀ b, PyDict.lookup (⟨[("p:t.html", 42)]⟩ : RedisStore).entries
        (getBucketName ⟨"p"⟩ (getCacheKey "t.html" none)) = some b →
      load ⟨[("t.html", ("src", none))], some ⟨"p"⟩, fun s _ _ => s.length + 100⟩
          ⟨[("p:t.html", 42)]⟩ "t.html" =
        .ok ⟨bytecodeFromString b, false, ⟨[("p:t.html", 42)]⟩⟩) ∧
    (PyDict.lookup (⟨[("p:t.html", 42)]⟩ : RedisStore).entries
        (getBucketName ⟨"p"⟩ (getCacheKey "t.html" none)) = none →
      load ⟨[("t.html", ("src", none))], some ⟨"p"⟩, fun s _ _ => s.length + 100⟩
          ⟨[("p:t.html", 42)]⟩ "t.html" =
        .ok ⟨(fun (s : String) (_ : String) (_ : Option String) => s.length + 100)
              "src" "t.html" none, true,
            ⟨PyDict.set (⟨[("p:t.html", 42)]⟩ : RedisStore).entries
              (getBucketName ⟨"p"⟩ (getCacheKey "t.html" none))
              (bytecodeToString ((fun (s : String) (_ : String)
                (_ : Option String) => s.length + 100) "src" "t.html" none))⟩⟩) :=
  load_bytecode_cache_behavior
    ⟨[("t.html", ("src", none))], some ⟨"p"⟩, fun s _ _ => s.length + 100⟩
    ⟨[("p:t.html", 42)]⟩ "t.html" "src" none ⟨"p"⟩ (by rfl) (by rfl)

/-! ### The code generator's `extends` handling (compiler.py `visit_Extends`)

`visit_Extends` emits *code*: its `writeline` calls append statements to the
render routine under construction.  The statements relevant to `extends` are
modelled structurally; `raise CompilerExit()` is the jinja2 internal control
exception the template visitor catches to stop emitting dead code — it is not
a compilation failure.  `self.fail` is the genuine compile-time failure. -/

/-- Statements `visit_Extends` writes into the generated render routine. -/
inductive Stmt where
  /-- `if parent_template is not None:` + indented
  `raise TemplateRuntimeError("extended multiple times")`. -/
  | guardedExtendedMultipleTimes
  /-- unguarded `raise TemplateRuntimeError("extended multiple times")`. -/
  | raiseExtendedMultipleTimes
  /-- `parent_template = await environment.get_template(<target>, name)`. -/
  | resolveParent (target : String)
  /-- `for name, parent_block in parent_template.blocks.items(): ...`. -/
  | mergeParentBlocks
deriving DecidableEq, Repr

/-- Code-generator state relevant to `visit_Extends`. -/
structure GenState where
  extendsSoFar : Nat
  hasKnownExtends : Bool
deriving DecidableEq, Repr

/-- Result of visiting one node: generation may fail (`self.fail`),
short-circuit (`raise CompilerExit()`, caught by the template visitor), or
continue with updated state. -/
inductive VisitResult where
  | ok (emitted : List Stmt) (st : GenState)
  | exit (emitted : List Stmt) (st : GenState)
  | fail (msg : String)
deriving DecidableEq, Repr

/-- `visit_Extends` (compiler.py 46-71). -/
def visitExtends (toplevel rootlevel : Bool) (target : String) (st : GenState) :
    VisitResult :=
  if !toplevel then
    .fail "cannot use extend from a non top-level scope"
  else
    let pre : List Stmt :=
      if st.extendsSoFar > 0 then
        if st.hasKnownExtends then [.raiseExtendedMultipleTimes]
        else [.guardedExtendedMultipleTimes]
      else []
    if st.extendsSoFar > 0 ∧ st.hasKnownExtends then
      .exit pre st
    else
      .ok (pre ++ [.resolveParent target, .mergeParentBlocks])
        ⟨st.extendsSoFar + 1, st.hasKnownExtends || rootlevel⟩

/-- One `extends` node of a template: its scope position and its target.
(The literal-vs-dynamic shape of the target plays no role in
`visit_Extends`; only the frame's root-level flag decides the static
short-circuit.) -/
structure ExtendsNode where
  toplevel : Bool
  rootlevel : Bool
  target : String
deriving DecidableEq, Repr

/-- Driving `visit_Extends` over a template's `extends` nodes, as the
template visitor does: `CompilerExit` is caught and stops emission (the rest
is dead code, compilation still succeeds); `self.fail` aborts compilation
with an error. -/
def compileExtendsSeq : List ExtendsNode → GenState → List Stmt →
    Except String (List Stmt)
  | [], _, acc => .ok acc
  | n :: rest, st, acc =>
      match visitExtends n.toplevel n.rootlevel n.target st with
      | .fail msg => .error msg
      | .exit emitted _ => .ok (acc ++ emitted)
      | .ok emitted st' => compileExtendsSeq rest st' (acc ++ emitted)

/-- Code generation for a template whose top-level statements are the given
`extends` nodes. -/
def compileTemplate (nodes : List ExtendsNode) : Except String (List Stmt) :=
  compileExtendsSeq nodes ⟨0, false⟩ []

/-- Render-time execution of the generated statements: `parent_template`
starts as `None`; the raise statements produce `TemplateRuntimeError`s. -/
def runStmts : List Stmt → Option String → Except String (Option String)
  | [], parent => .ok parent
  | .raiseExtendedMultipleTimes :: _, _ => .error "extended multiple times"
  | .guardedExtendedMultipleTimes :: rest, parent =>
      match parent with
      | some _ => .error "extended multiple times"
      | none => runStmts rest parent
  | .resolveParent target :: rest, _ => runStmts rest (some target)
  | .mergeParentBlocks :: rest, parent => runStmts rest parent

/-- Counterexample to C2: a template with two root-level `extends` (both with
literal targets) *compiles successfully* — code generation returns the
emitted render routine, raising no compile-time error; the "extended multiple
times" failure only occurs when the generated code is executed, i.e. at
render time, contradicting "fatal, raised during code generation, before any
render attempt". -/
theorem multiple_extends_compiles_successfully :
    compileTemplate [⟨true, true, "base.html"⟩, ⟨true, true, "other.html"⟩] =
      .ok [.resolveParent "base.html", .mergeParentBlocks,
        .raiseExtendedMultipleTimes] ∧
    runStmts [.resolveParent "base.html", .mergeParentBlocks,
        .raiseExtendedMultipleTimes] none = .error "extended multiple times" := by
  constructor
  · rfl
  · rfl

/-- C2 (amended): multiple `extends` in one template are rejected by a
`TemplateRuntimeError("extended multiple times")` raised when the generated
code *renders*, not during code generation.  When the earlier `extends` sat
at root level (`has_known_extends`), the raise is emitted unconditionally and
code generation short-circuits via `CompilerExit`; when it did not, a runtime
guard is emitted that raises only if a parent template was already resolved.
The only code-generation-time failure of `visit_Extends` is an `extends` in a
non-top-level scope. -/
theorem multiple_extends_raises_at_render_time (target1 target2 : String)
    (root2 : Bool) :
    (compileTemplate [⟨true, true, target1⟩, ⟨true, root2, target2⟩] =
      .ok [.resolveParent target1, .mergeParentBlocks,
        .raiseExtendedMultipleTimes] ∧
     runStmts [.resolveParent target1, .mergeParentBlocks,
       .raiseExtendedMultipleTimes] none = .error "extended multiple times") ∧
    (compileTemplate [⟨true, false, target1⟩, ⟨true, root2, target2⟩] =
      .ok [.resolveParent target1, .mergeParentBlocks,
        .guardedExtendedMultipleTimes, .resolveParent target2,
        .mergeParentBlocks] ∧
     runStmts [.resolveParent target1, .mergeParentBlocks,
       .guardedExtendedMultipleTimes, .resolveParent target2,
       .mergeParentBlocks] none = .error "extended multiple times") ∧
    (∀ st : GenState, visitExtends false root2 target2 st =
      .fail "cannot use extend from a non top-level scope") :=
  ⟨⟨rfl, rfl⟩, ⟨rfl, rfl⟩, fun _ => rfl⟩

end StarletteAsyncJinja
